import Mathlib

/-!
Shallow embedding of the geospatial ingestion pipeline of
`backend_fastapi.py` (repository jaluebbe/smart_duengen).

Modelling conventions:
* Python numbers (rate values, settings) are modelled as rationals.
* Feature property dictionaries are association lists with distinct keys;
  dictionary operations (`lookup`, `setKey`) mirror Python dict reads and
  writes (a write overwrites an existing key in place, otherwise appends).
* Geometries are opaque: the embedding is polymorphic in a geometry type
  `G`, and the external geometry operations (reprojection by pyproj,
  `unary_union` by shapely) are explicit function parameters.
* Fallible code is embedded in `Except Err`; the `Err` constructors
  `indexError`, `keyError`, `valueError`, `attributeError` stand for the
  corresponding unhandled Python exceptions, the remaining code
  constructors for the four `HTTPException` raises of the source.  The
  constructors `noShapefileInArchive`, `noPositiveRateValues` and
  `emptyPlan` are modelled from the spec: they name error kinds of the
  spec error taxonomy that the source never raises, so that their
  absence from the code is statable.
-/

/-- Failure outcomes of the pipeline.  The first four constructors are the
four `HTTPException` raises of the source; the next four are unhandled
Python runtime exceptions; the last three are spec-taxonomy kinds that the
source code never produces. -/
inductive Err where
  | noShapeData
  | tooManyFiles
  | noUniqueRateKey
  | missingBoundaryAndPlan
  | indexError
  | keyError
  | valueError
  | attributeError
  | noShapefileInArchive
  | noPositiveRateValues
  | emptyPlan
deriving DecidableEq

/-- A GeoJSON feature: a geometry of abstract type `G` plus a property
dictionary (attribute name to numeric value), as in the pydantic model
`Feature` of the source. -/
structure Feature (G : Type) where
  geometry : G
  properties : List (String × ℚ) := []
deriving DecidableEq

/-- A GeoJSON feature collection, as in the pydantic model
`FeatureCollection` of the source. -/
structure FeatureCollection (G : Type) where
  features : List (Feature G)
deriving DecidableEq

/-- The `Settings` pydantic model of the source with its default field
values (`default_speed = 2.2` is the exact rational 11/5 here). -/
structure Settings where
  throwing_range : ℚ := 15
  min_speed : ℚ := 1
  default_rate : ℚ := 0
  default_speed : ℚ := 22 / 10
deriving DecidableEq

/-- The `ProjectFile` pydantic model of the source: optional boundaries,
optional plan, defaulted settings. -/
structure ProjectFile (G : Type) where
  boundaries : Option (FeatureCollection G) := none
  plan : Option (FeatureCollection G) := none
  settings : Settings := {}
deriving DecidableEq

/-- The result dictionary built by `shape_file_conversion` and consumed by
`process_plan_geojson`: keys `file_name`, `geojson`, `input_crs`,
`original_crs`, plus the keys `min_rate` and `max_rate` that
`process_plan_geojson` adds (absent, hence `none`, before that call). -/
structure Plan (G : Type) where
  file_name : String := ""
  geojson : FeatureCollection G
  input_crs : String := "EPSG:4326"
  original_crs : Option String := none
  min_rate : Option ℚ := none
  max_rate : Option ℚ := none
deriving DecidableEq

/-- Python dict read `d[k]` on a property dictionary, as an `Option`
(`none` is the `KeyError` case). -/
def lookup : List (String × ℚ) → String → Option ℚ
  | [], _ => none
  | kv :: rest, k => if kv.1 = k then some kv.2 else lookup rest k

/-- Python dict write `d[k] = v`: overwrite the existing binding in place,
otherwise append the new binding at the end. -/
def setKey : List (String × ℚ) → String → ℚ → List (String × ℚ)
  | [], k, v => [(k, v)]
  | kv :: rest, k, v =>
      if kv.1 = k then (k, v) :: rest else kv :: setKey rest k v

/-- The fixed rate alias list of `process_plan_geojson`. -/
def rate_aliases : List String := ["RATE", "Menge", "rate", "fertilizer"]

/-- The set intersection `set(all_properties[0].keys()).intersection([...])`
of the source, as the deduplicated key list filtered by alias membership
(dictionary keys are distinct, so `dedup` is a no-op on real inputs). -/
def known_rate_keys (props : List (String × ℚ)) : List String :=
  ((props.map Prod.fst).dedup).filter (fun k => rate_aliases.contains k)

/-- The list comprehension of the source collecting `_property[rate_key]`
from every feature where the value is strictly positive; a missing key
raises `KeyError` at the first offending dictionary. -/
def collectPositive (k : String) : List (List (String × ℚ)) → Except Err (List ℚ)
  | [] => .ok []
  | props :: rest =>
      match lookup props k with
      | none => .error .keyError
      | some v =>
          match collectPositive k rest with
          | .error e => .error e
          | .ok tl => if 0 < v then .ok (v :: tl) else .ok tl

/-- The final loop of `process_plan_geojson`:
`_property["V22RATE"] = _property[rate_key] / max_rate` for every feature,
reading the rate key unconditionally (missing key raises `KeyError`). -/
def assignV22 {G : Type} (k : String) (m : ℚ) :
    List (Feature G) → Except Err (List (Feature G))
  | [] => .ok []
  | f :: rest =>
      match lookup f.properties k with
      | none => .error .keyError
      | some v =>
          match assignV22 k m rest with
          | .error e => .error e
          | .ok tl =>
              .ok ({ f with properties := setKey f.properties "V22RATE" (v / m) } :: tl)

/-- Embedding of `process_plan_geojson` (source lines 146-167).
`all_properties[0]` on an empty feature list is an `IndexError`; a
non-singleton alias intersection raises the 404 "No unique rate key
found."; `min`/`max` of the empty filtered list raises `ValueError`;
`min` and `max` of a nonempty list are the left folds of `min`/`max`. -/
def process_plan_geojson {G : Type} (p : Plan G) : Except Err (Plan G) :=
  match p.geojson.features with
  | [] => .error .indexError
  | f0 :: _ =>
      match known_rate_keys f0.properties with
      | [rate_key] =>
          match collectPositive rate_key
              (p.geojson.features.map (fun f => f.properties)) with
          | .error e => .error e
          | .ok rate_values =>
              match rate_values with
              | [] => .error .valueError
              | v :: vs =>
                  match assignV22 rate_key (vs.foldl max v) p.geojson.features with
                  | .error e => .error e
                  | .ok feats =>
                      .ok { p with geojson := ⟨feats⟩,
                                   min_rate := some (vs.foldl min v),
                                   max_rate := some (vs.foldl max v) }
      | _ => .error .noUniqueRateKey

/-- The rate key that lines 147-156 of the source resolve from the first
feature, when they resolve one. -/
def resolved_rate_key {G : Type} (p : Plan G) : Option String :=
  match p.geojson.features with
  | [] => none
  | f0 :: _ =>
      match known_rate_keys f0.properties with
      | [k] => some k
      | _ => none

/-- Lower-casing of one ASCII letter, the alphabet that Python
`str.lower` meets on the filenames and CRS descriptors of this
pipeline. -/
def lowerChar (c : Char) : Char :=
  if 'A' ≤ c ∧ c ≤ 'Z' then Char.ofNat (c.toNat + 32) else c

/-- Python `str.lower`. -/
def strLower (s : String) : String := ⟨s.toList.map lowerChar⟩

/-- Python `str.startswith`. -/
def strStartsWith (s pre : String) : Bool := pre.toList.isPrefixOf s.toList

/-- Python `str.endswith`. -/
def strEndsWith (s suf : String) : Bool :=
  suf.toList.reverse.isPrefixOf s.toList.reverse

/-- The compiled regular expression
`epsg_pattern = re.compile("^(?:EPSG|epsg):[0-9]{4,5}$")` of the source:
the descriptor is the literal prefix `EPSG:` or `epsg:` followed by four
or five decimal digits. -/
def epsgMatch (s : String) : Bool :=
  (strStartsWith s "EPSG:" || strStartsWith s "epsg:") &&
    (let d := s.toList.drop 5
     (d.length = 4 || d.length = 5) && d.all Char.isDigit)

/-- Python `os.path.splitext`: split a path into root and extension at the
last dot of the final path component; leading dots of that component are
part of the root and never start an extension. -/
def splitext (p : String) : String × String :=
  let revCs := p.toList.reverse
  let baseRev := revCs.takeWhile (fun c => c ≠ '/')
  let dir := (revCs.dropWhile (fun c => c ≠ '/')).reverse
  match baseRev.span (fun c => c ≠ '.') with
  | (_, []) => (p, "")
  | (extRev, _ :: rootRev) =>
      if rootRev.all (fun c => c = '.') then (p, "")
      else ((dir ++ rootRev.reverse).asString,
            ('.' :: extRev.reverse).asString)

/-- The recognized spatial file extensions of `shape_file_conversion`. -/
def spatial_extensions : List String := [".shp", ".zip", ".json", ".geojson"]

/-- The candidate filter of source lines 100-105: keep the filenames whose
lower-cased extension is a recognized spatial extension. -/
def candidate_files (names : List String) : List String :=
  names.filter (fun n => spatial_extensions.contains (strLower (splitext n).2))

/-- Source lines 106-114: zero candidates raise the 404 "No shape data
provided.", more than one raises the 500 "Too many files.", otherwise the
sole candidate `shapefiles[0]` is taken. -/
def resolve_candidate (names : List String) : Except Err String :=
  match candidate_files names with
  | [] => .error .noShapeData
  | [f] => .ok f
  | _ => .error .tooManyFiles

/-- The zip entry filter of source lines 119-125: entries whose lower-cased
name ends in `.shp` and whose path starts with neither `__MACOSX/` nor
`Rx/`. -/
def zip_shp_entries (entries : List String) : List String :=
  entries.filter (fun n =>
    strEndsWith (strLower n) ".shp" &&
    !(strStartsWith n "__MACOSX/") && !(strStartsWith n "Rx/"))

/-- Source lines 126-128: more than one matching entry raises the 500
"Too many files."; otherwise `shp_in_zip[0]` is read, which on an empty
match list is an `IndexError`. -/
def zip_select_shp (entries : List String) : Except Err String :=
  let l := zip_shp_entries entries
  if l.length > 1 then .error .tooManyFiles
  else
    match l with
    | [] => .error .indexError
    | e :: _ => .ok e

/-- A geopandas `GeoDataFrame` as far as the CRS logic of the source
observes it: an optional CRS descriptor and the parsed features. -/
structure GeoDF (G : Type) where
  crs : Option String
  features : List (Feature G)
deriving DecidableEq

/-- `GeoDataFrame.set_crs`, modelled as replacing the CRS tag of the
frame. -/
def set_crs {G : Type} (c : String) (df : GeoDF G) : GeoDF G :=
  { df with crs := some c }

/-- `GeoDataFrame.to_crs`, parameterized by the external reprojection
function `R from-crs to-crs geometry`; calling it on a frame without a
CRS raises a `ValueError`. -/
def to_crs {G : Type} (R : String → String → G → G) (target : String)
    (df : GeoDF G) : Except Err (GeoDF G) :=
  match df.crs with
  | none => .error .valueError
  | some c =>
      .ok { crs := some target,
            features := df.features.map
              (fun f => { f with geometry := R c target f.geometry }) }

/-- Embedding of source lines 131-143, the CRS resolution and output step
of `shape_file_conversion`: if the frame has a detected CRS that fails
`epsg_pattern`, the caller default is assigned; if no CRS was detected the
caller default is assigned; the frame is then reprojected to `EPSG:4326`
and packed into the result dictionary.  The caller default is the
`input_crs` parameter of `shape_file_conversion`, whose Python default is
the string EPSG:4326. -/
def shape_file_crs_step {G : Type} (R : String → String → G → G)
    (file_name input_crs : String) (df : GeoDF G) : Except Err (Plan G) :=
  let step : Option String × GeoDF G :=
    match df.crs with
    | some c => (some c, if epsgMatch c then df else set_crs input_crs df)
    | none => (none, set_crs input_crs df)
  match to_crs R "EPSG:4326" step.2 with
  | .error e => .error e
  | .ok out =>
      .ok { file_name := (splitext file_name).1,
            geojson := ⟨out.features⟩,
            input_crs := input_crs,
            original_crs := step.1,
            min_rate := none,
            max_rate := none }

/-- The effective input CRS as the spec words it (spec 4.4): the detected
CRS when it is a recognized authority code, the caller default otherwise.
This is the spec-side definition that `shape_file_crs_step` is compared
against. -/
def effective_input_crs (detected : Option String) (input_crs : String) : String :=
  match detected with
  | none => input_crs
  | some c => if epsgMatch c then c else input_crs

/-- Embedding of `complete_project_file` (source lines 176-197),
parameterized by the external geometric union `u` (shapely
`unary_union`).  On an empty plan the source builds a `GeoDataFrame` from
zero features and reads its `geometry` column, which geopandas answers
with an `AttributeError` (no geometry column is ever set); on a nonempty
plan the union of all feature geometries is wrapped as a single feature
with empty properties. -/
def complete_project_file {G : Type} (u : List G → G) (pf : ProjectFile G) :
    Except Err (ProjectFile G) :=
  match pf.boundaries with
  | some _ => .ok pf
  | none =>
      match pf.plan with
      | none => .error .missingBoundaryAndPlan
      | some plan =>
          match plan.features with
          | [] => .error .attributeError
          | f :: fs =>
              let merged : G := u ((f :: fs).map (fun ft => ft.geometry))
              let boundary : FeatureCollection G :=
                ⟨[{ geometry := merged, properties := [] }]⟩
              .ok { pf with boundaries := some boundary }

/-- Decidable equality of `Except` results, needed to evaluate the embedded
pipeline on concrete inputs. -/
instance instDecidableEqExcept {e a : Type} [DecidableEq e] [DecidableEq a] :
    DecidableEq (Except e a) := fun x y =>
  match x, y with
  | .ok v, .ok w =>
      if h : v = w then isTrue (by rw [h])
      else isFalse (by intro hc; cases hc; exact h rfl)
  | .error v, .error w =>
      if h : v = w then isTrue (by rw [h])
      else isFalse (by intro hc; cases hc; exact h rfl)
  | .ok _, .error _ => isFalse (by intro hc; cases hc)
  | .error _, .ok _ => isFalse (by intro hc; cases hc)

/-- A three feature plan with rate key `rate` and values 10, 20, 30, the
worked example of the spec. -/
def plan3 : Plan Unit :=
  { geojson := ⟨[{ geometry := (), properties := [("rate", 10)] },
                 { geometry := (), properties := [("rate", 20)] },
                 { geometry := (), properties := [("rate", 30)] }]⟩ }

/-- The result of processing `plan3`. -/
def plan3out : Plan Unit :=
  { geojson := ⟨[{ geometry := (), properties := [("rate", 10), ("V22RATE", 1/3)] },
                 { geometry := (), properties := [("rate", 20), ("V22RATE", 2/3)] },
                 { geometry := (), properties := [("rate", 30), ("V22RATE", 1)] }]⟩,
    min_rate := some 10,
    max_rate := some 30 }

/-- A plan with rate values -5 and 10; the negative value is excluded from
the range but still receives a V22RATE. -/
def planNeg : Plan Unit :=
  { geojson := ⟨[{ geometry := (), properties := [("rate", -5)] },
                 { geometry := (), properties := [("rate", 10)] }]⟩ }

/-- The result of processing `planNeg`: the first feature gets the negative
V22RATE value -1/2. -/
def planNegOut : Plan Unit :=
  { geojson := ⟨[{ geometry := (), properties := [("rate", -5), ("V22RATE", -(1/2))] },
                 { geometry := (), properties := [("rate", 10), ("V22RATE", 1)] }]⟩,
    min_rate := some 10,
    max_rate := some 10 }

/-- A plan whose first feature carries both `RATE` and `rate`. -/
def planBoth : Plan Unit :=
  { geojson := ⟨[{ geometry := (), properties := [("RATE", 5), ("rate", 7)] }]⟩ }

/-- A plan with a unique rate key but no strictly positive rate value. -/
def planNonPos : Plan Unit :=
  { geojson := ⟨[{ geometry := (), properties := [("rate", 0)] },
                 { geometry := (), properties := [("rate", -3)] }]⟩ }

/-- A plan whose first feature resolves the key `rate` but whose second
feature lacks that key. -/
def planMissing : Plan Unit :=
  { geojson := ⟨[{ geometry := (), properties := [("rate", 5)] },
                 { geometry := (), properties := [("Menge", 4)] }]⟩ }

/-- A trivial union function on the one point geometry type. -/
def uUnit : List Unit → Unit := fun _ => ()

/-- A project file with no boundaries and an empty plan. -/
def pfEmptyPlan : ProjectFile Unit := { boundaries := none, plan := some ⟨[]⟩ }

/-- A project file with no boundaries and a one feature plan. -/
def pfPlanOnly : ProjectFile Unit :=
  { boundaries := none, plan := some ⟨[{ geometry := () }]⟩ }

/-- Zip entry list with one matching entry next to reserved-directory and
non-shapefile entries. -/
def zipEntriesEx : List String :=
  ["__MACOSX/field.shp", "field.SHP", "readme.txt", "Rx/plan.shp"]

/-- Zip entry list with no matching entry outside reserved prefixes. -/
def zipEntriesNoShp : List String := ["readme.txt", "__MACOSX/a.shp"]

theorem lookup_setKey_self (props : List (String × ℚ)) (k : String) (v : ℚ) :
    lookup (setKey props k v) k = some v := by
  induction props with
  | nil => simp [setKey, lookup]
  | cons kv rest ih =>
      by_cases h : kv.1 = k
      · simp [setKey, h, lookup]
      · simp [setKey, h, lookup, ih]

theorem foldl_min_mem {A : Type} [LinearOrder A] (vs : List A) (v : A) :
    vs.foldl min v ∈ v :: vs := by
  induction vs generalizing v with
  | nil => simp
  | cons w ws ih =>
      have h := ih (min v w)
      simp only [List.foldl_cons]
      rcases List.mem_cons.mp h with h1 | h1
      · rcases min_choice v w with h2 | h2 <;> rw [h1, h2] <;> simp
      · simp [List.mem_cons, Or.inr (Or.inr h1)]

theorem foldl_min_le_init {A : Type} [LinearOrder A] (vs : List A) (v : A) :
    vs.foldl min v ≤ v := by
  induction vs generalizing v with
  | nil => simp
  | cons w ws ih =>
      simp only [List.foldl_cons]
      exact le_trans (ih (min v w)) (min_le_left _ _)

theorem foldl_min_le {A : Type} [LinearOrder A] (vs : List A) (v x : A)
    (hx : x ∈ v :: vs) : vs.foldl min v ≤ x := by
  induction vs generalizing v with
  | nil =>
      simp only [List.mem_cons, List.not_mem_nil, or_false] at hx
      simp [hx]
  | cons w ws ih =>
      simp only [List.foldl_cons]
      rcases List.mem_cons.mp hx with h1 | h1
      · subst h1
        exact le_trans (foldl_min_le_init ws (min x w)) (min_le_left _ _)
      · rcases List.mem_cons.mp h1 with h2 | h2
        · subst h2
          exact le_trans (foldl_min_le_init ws (min v x)) (min_le_right _ _)
        · exact ih (min v w) (List.mem_cons.mpr (Or.inr h2))

theorem foldl_max_mem {A : Type} [LinearOrder A] (vs : List A) (v : A) :
    vs.foldl max v ∈ v :: vs := by
  induction vs generalizing v with
  | nil => simp
  | cons w ws ih =>
      have h := ih (max v w)
      simp only [List.foldl_cons]
      rcases List.mem_cons.mp h with h1 | h1
      · rcases max_choice v w with h2 | h2 <;> rw [h1, h2] <;> simp
      · simp [List.mem_cons, Or.inr (Or.inr h1)]

theorem le_foldl_max_init {A : Type} [LinearOrder A] (vs : List A) (v : A) :
    v ≤ vs.foldl max v := by
  induction vs generalizing v with
  | nil => simp
  | cons w ws ih =>
      simp only [List.foldl_cons]
      exact le_trans (le_max_left _ _) (ih (max v w))

theorem le_foldl_max {A : Type} [LinearOrder A] (vs : List A) (v x : A)
    (hx : x ∈ v :: vs) : x ≤ vs.foldl max v := by
  induction vs generalizing v with
  | nil =>
      simp only [List.mem_cons, List.not_mem_nil, or_false] at hx
      simp [hx]
  | cons w ws ih =>
      simp only [List.foldl_cons]
      rcases List.mem_cons.mp hx with h1 | h1
      · subst h1
        exact le_trans (le_max_left _ _) (le_foldl_max_init ws (max x w))
      · rcases List.mem_cons.mp h1 with h2 | h2
        · subst h2
          exact le_trans (le_max_right _ _) (le_foldl_max_init ws (max v x))
        · exact ih (max v w) (List.mem_cons.mpr (Or.inr h2))

theorem collectPositive_error (k : String) (ps : List (List (String × ℚ)))
    (e : Err) (h : collectPositive k ps = .error e) : e = Err.keyError := by
  induction ps with
  | nil => simp [collectPositive] at h
  | cons props rest ih =>
      cases hl : lookup props k with
      | none =>
          simp only [collectPositive, hl] at h
          cases h
          rfl
      | some v =>
          cases hc : collectPositive k rest with
          | error e2 =>
              simp only [collectPositive, hl, hc] at h
              cases h
              exact ih hc
          | ok tl =>
              simp only [collectPositive, hl, hc] at h
              by_cases hp : 0 < v
              · rw [if_pos hp] at h; cases h
              · rw [if_neg hp] at h; cases h

theorem collectPositive_missing (k : String) (ps : List (List (String × ℚ)))
    (h : ∃ pr ∈ ps, lookup pr k = none) :
    collectPositive k ps = .error Err.keyError := by
  induction ps with
  | nil => simp at h
  | cons props rest ih =>
      obtain ⟨pr, hpr, hnone⟩ := h
      rcases List.mem_cons.mp hpr with h1 | h1
      · subst h1
        unfold collectPositive
        rw [hnone]
      · unfold collectPositive
        cases hl : lookup props k with
        | none => rfl
        | some v => rw [ih ⟨pr, h1, hnone⟩]

theorem collectPositive_ok_lookup (k : String) (ps : List (List (String × ℚ)))
    (l : List ℚ) (h : collectPositive k ps = .ok l) :
    ∀ pr ∈ ps, ∃ x : ℚ, lookup pr k = some x := by
  intro pr hpr
  by_contra hcon
  push_neg at hcon
  have hnone : lookup pr k = none := by
    cases hl : lookup pr k with
    | none => rfl
    | some x => exact absurd hl (hcon x)
  rw [collectPositive_missing k ps ⟨pr, hpr, hnone⟩] at h
  cases h

theorem collectPositive_ok_pos (k : String) (ps : List (List (String × ℚ)))
    (l : List ℚ) (h : collectPositive k ps = .ok l) : ∀ x ∈ l, 0 < x := by
  induction ps generalizing l with
  | nil =>
      unfold collectPositive at h
      cases h
      simp
  | cons props rest ih =>
      cases hl : lookup props k with
      | none =>
          simp only [collectPositive, hl] at h
          cases h
      | some v =>
          cases hc : collectPositive k rest with
          | error e =>
              simp only [collectPositive, hl, hc] at h
              cases h
          | ok tl =>
              simp only [collectPositive, hl, hc] at h
              by_cases hp : 0 < v
              · rw [if_pos hp] at h
                cases h
                intro x hx
                rcases List.mem_cons.mp hx with h1 | h1
                · rw [h1]; exact hp
                · exact ih tl hc x h1
              · rw [if_neg hp] at h
                cases h
                exact ih _ hc

theorem collectPositive_ok_mem (k : String) (ps : List (List (String × ℚ)))
    (l : List ℚ) (h : collectPositive k ps = .ok l) :
    ∀ pr ∈ ps, ∀ x : ℚ, lookup pr k = some x → 0 < x → x ∈ l := by
  induction ps generalizing l with
  | nil => simp
  | cons props rest ih =>
      cases hl : lookup props k with
      | none =>
          simp only [collectPositive, hl] at h
          cases h
      | some v =>
          cases hc : collectPositive k rest with
          | error e2 =>
              simp only [collectPositive, hl, hc] at h
              cases h
          | ok tl =>
              simp only [collectPositive, hl, hc] at h
              intro pr hpr x hx hpos
              rcases List.mem_cons.mp hpr with h1 | h1
              · subst h1
                rw [hl] at hx
                cases hx
                rw [if_pos hpos] at h
                cases h
                exact List.mem_cons_self _ _
              · have hmem := ih tl hc pr h1 x hx hpos
                by_cases hp : 0 < v
                · rw [if_pos hp] at h
                  cases h
                  exact List.mem_cons.mpr (Or.inr hmem)
                · rw [if_neg hp] at h
                  cases h
                  exact hmem

theorem assignV22_error {G : Type} (k : String) (m : ℚ)
    (feats : List (Feature G)) (e : Err)
    (h : assignV22 k m feats = .error e) : e = Err.keyError := by
  induction feats generalizing e with
  | nil => simp [assignV22] at h
  | cons f rest ih =>
      cases hl : lookup f.properties k with
      | none =>
          simp only [assignV22, hl] at h
          cases h
          rfl
      | some v =>
          cases ha : assignV22 k m rest with
          | error e2 =>
              simp only [assignV22, hl, ha] at h
              cases h
              exact ih _ ha
          | ok tl =>
              simp only [assignV22, hl, ha] at h
              cases h

theorem assignV22_ok_forall2 {G : Type} (k : String) (m : ℚ)
    (feats feats' : List (Feature G))
    (h : assignV22 k m feats = .ok feats') :
    List.Forall₂ (fun f f' => ∃ x : ℚ, lookup f.properties k = some x ∧
        f'.properties = setKey f.properties "V22RATE" (x / m)) feats feats' := by
  induction feats generalizing feats' with
  | nil =>
      unfold assignV22 at h
      cases h
      exact List.Forall₂.nil
  | cons f rest ih =>
      cases hl : lookup f.properties k with
      | none =>
          simp only [assignV22, hl] at h
          cases h
      | some v =>
          cases ha : assignV22 k m rest with
          | error e =>
              simp only [assignV22, hl, ha] at h
              cases h
          | ok tl =>
              simp only [assignV22, hl, ha] at h
              cases h
              exact List.Forall₂.cons ⟨v, hl, rfl⟩ (ih tl ha)

theorem assignV22_total {G : Type} (k : String) (m : ℚ)
    (feats : List (Feature G))
    (hall : ∀ f ∈ feats, ∃ x : ℚ, lookup f.properties k = some x) :
    ∃ feats' : List (Feature G), assignV22 k m feats = .ok feats' := by
  induction feats with
  | nil => exact ⟨[], rfl⟩
  | cons f rest ih =>
      obtain ⟨x, hx⟩ := hall f (List.mem_cons_self _ _)
      obtain ⟨tl, htl⟩ := ih (fun g hg => hall g (List.mem_cons.mpr (Or.inr hg)))
      refine ⟨{ f with properties := setKey f.properties "V22RATE" (x / m) } :: tl, ?_⟩
      simp only [assignV22, hx, htl]

theorem assignV22_bounds {G : Type} (k : String) (m : ℚ) (hm : 0 < m)
    (feats feats' : List (Feature G))
    (hass : assignV22 k m feats = .ok feats')
    (hub : ∀ f ∈ feats, ∀ x : ℚ, lookup f.properties k = some x → x ≤ m) :
    List.Forall₂ (fun f f' => ∀ v w : ℚ,
        lookup f.properties k = some v →
        lookup f'.properties "V22RATE" = some w →
        w ≤ 1 ∧ (0 ≤ v → 0 ≤ w)) feats feats' := by
  induction feats generalizing feats' with
  | nil =>
      unfold assignV22 at hass
      cases hass
      exact List.Forall₂.nil
  | cons f rest ih =>
      cases hl : lookup f.properties k with
      | none =>
          simp only [assignV22, hl] at hass
          cases hass
      | some v0 =>
          cases ha : assignV22 k m rest with
          | error e =>
              simp only [assignV22, hl, ha] at hass
              cases hass
          | ok tl =>
              simp only [assignV22, hl, ha] at hass
              cases hass
              refine List.Forall₂.cons ?_ (ih tl ha
                (fun g hg => hub g (List.mem_cons.mpr (Or.inr hg))))
              intro v w hv hw
              rw [hl] at hv
              cases hv
              rw [lookup_setKey_self] at hw
              cases hw
              refine ⟨?_, ?_⟩
              · rw [div_le_one hm]
                exact hub f (List.mem_cons_self _ _) v0 hl
              · intro hv0
                exact div_nonneg hv0 (le_of_lt hm)

/-- C1: in `shape_file_conversion`, the effective input CRS is the caller
default when no CRS is detected, the caller default when the detected
descriptor fails the `epsg_pattern` check, and the detected descriptor
itself when it matches; in every case all geometries are reprojected from
the effective input CRS to `EPSG:4326`, and the result records the caller
default and the originally detected CRS. -/
theorem C1_crs_resolution (G : Type) (R : String → String → G → G)
    (fn ic : String) (df : GeoDF G) :
    shape_file_crs_step R fn ic df = Except.ok
      { file_name := (splitext fn).1,
        geojson := ⟨df.features.map (fun f =>
          { f with geometry := R (effective_input_crs df.crs ic) "EPSG:4326" f.geometry })⟩,
        input_crs := ic,
        original_crs := df.crs,
        min_rate := none,
        max_rate := none } := by
  cases hc : df.crs with
  | none =>
      simp [shape_file_crs_step, hc, to_crs, set_crs, effective_input_crs]
  | some c =>
      by_cases he : epsgMatch c <;>
        simp [shape_file_crs_step, hc, to_crs, set_crs, effective_input_crs, he]

/-- C3 (amended): `complete_project_file` fails with the
missing-boundary-and-plan error when boundaries and plan are both absent,
returns the input unchanged when boundaries are supplied, synthesizes the
boundaries as the wrapped union of the plan geometries when boundaries are
absent and a plan with at least one feature is present, and every
successful result has non-null boundaries.  With an empty plan the union
path fails inside the geometry library instead of producing a boundary. -/
theorem C3_project_assembly (G : Type) (u : List G → G) (pf : ProjectFile G) :
    (pf.boundaries = none → pf.plan = none →
      complete_project_file u pf = Except.error Err.missingBoundaryAndPlan) ∧
    (∀ b : FeatureCollection G, pf.boundaries = some b →
      complete_project_file u pf = Except.ok pf) ∧
    (∀ (plan : FeatureCollection G) (f : Feature G) (fs : List (Feature G)),
      pf.boundaries = none → pf.plan = some plan → plan.features = f :: fs →
      complete_project_file u pf = Except.ok { pf with
        boundaries := some (FeatureCollection.mk
          [Feature.mk (u (plan.features.map (fun ft => ft.geometry))) []]) }) ∧
    (∀ q : ProjectFile G, complete_project_file u pf = Except.ok q →
      q.boundaries ≠ none) := by
  refine ⟨?_, ?_, ?_, ?_⟩
  · intro hb hp
    simp [complete_project_file, hb, hp]
  · intro b hb
    simp [complete_project_file, hb]
  · intro plan f fs hb hp hf
    simp [complete_project_file, hb, hp, hf]
  · intro q hok
    cases hb : pf.boundaries with
    | some b =>
        simp only [complete_project_file, hb] at hok
        cases hok
        rw [hb]
        simp
    | none =>
        cases hp : pf.plan with
        | none => simp [complete_project_file, hb, hp] at hok
        | some plan =>
            cases hf : plan.features with
            | nil => simp [complete_project_file, hb, hp, hf] at hok
            | cons f fs =>
                simp only [complete_project_file, hb, hp, hf] at hok
                cases hok
                simp

/-- Witness for C3: with only a one feature plan the boundary is the
synthesized wrapped union, and with neither boundaries nor plan the
assembly fails. -/
theorem C3_witness :
    complete_project_file uUnit pfPlanOnly = Except.ok
      { pfPlanOnly with boundaries := some ⟨[{ geometry := (), properties := [] }]⟩ } ∧
    complete_project_file uUnit { boundaries := none, plan := none } =
      Except.error Err.missingBoundaryAndPlan := by
  constructor
  · exact (C3_project_assembly Unit uUnit pfPlanOnly).2.2.1
      ⟨[{ geometry := () }]⟩ { geometry := () } [] rfl rfl rfl
  · exact (C3_project_assembly Unit uUnit { boundaries := none, plan := none }).1 rfl rfl

/-- Counterexample for C3 as frozen: with boundaries absent and an empty
plan present, `complete_project_file` does not return the wrapped union
boundary; it fails with the library error. -/
theorem C3_counterexample :
    complete_project_file uUnit pfEmptyPlan = Except.error Err.attributeError ∧
    complete_project_file uUnit pfEmptyPlan ≠ Except.ok
      { pfEmptyPlan with
        boundaries := some (FeatureCollection.mk [Feature.mk (uUnit []) []]) } := by
  decide

/-- C4: inside a zip the source considers exactly the entries whose
lower-cased name ends in `.shp` and whose path starts with neither
`__MACOSX/` nor `Rx/`; more than one such entry fails with the 500
"Too many files." (the AmbiguousArchiveContent case), and exactly one such
entry is the one selected and read. -/
theorem C4_zip_entry_selection (entries : List String) :
    ((zip_shp_entries entries).length > 1 →
        zip_select_shp entries = Except.error Err.tooManyFiles) ∧
    (∀ e : String, zip_shp_entries entries = [e] →
        zip_select_shp entries = Except.ok e) ∧
    (∀ n : String, n ∈ zip_shp_entries entries ↔
        (n ∈ entries ∧ strEndsWith (strLower n) ".shp" = true ∧
         strStartsWith n "__MACOSX/" = false ∧ strStartsWith n "Rx/" = false)) := by
  refine ⟨?_, ?_, ?_⟩
  · intro h
    simp [zip_select_shp, h]
  · intro e he
    simp [zip_select_shp, he]
  · intro n
    simp [zip_shp_entries, List.mem_filter, Bool.and_eq_true, Bool.not_eq_true']
    tauto

/-- Witness for C4: in a zip holding a reserved `__MACOSX/` shapefile, a
reserved `Rx/` shapefile, a non-spatial file and one upper-case `.SHP`
entry, exactly the latter is selected. -/
theorem C4_witness : zip_select_shp zipEntriesEx = Except.ok "field.SHP" :=
  (C4_zip_entry_selection zipEntriesEx).2.1 "field.SHP" (by decide)

/-- C5: on a zip with zero matching entries the source indexes into the
empty match list, an index-out-of-range failure, and not an explicit
no-shapefile-in-archive error. -/
theorem C5_zero_match_crash :
    zip_select_shp zipEntriesNoShp = Except.error Err.indexError ∧
    Err.indexError ≠ Err.noShapefileInArchive := by decide

/-- C8 (amended): invoked on a plan with zero features, the boundary
synthesis of `complete_project_file` performs no empty-plan check; it
enters the union path, which fails with the geometry library error, not
with an explicit empty-plan error. -/
theorem C8_empty_plan_library_error (G : Type) (u : List G → G) (s : Settings) :
    complete_project_file u { boundaries := none, plan := some ⟨[]⟩, settings := s } =
      Except.error Err.attributeError := rfl

/-- Counterexample for C8 as frozen: on an empty plan the operation does
not fail with an EmptyPlan error. -/
theorem C8_counterexample :
    complete_project_file uUnit pfEmptyPlan = Except.error Err.attributeError ∧
    complete_project_file uUnit pfEmptyPlan ≠ Except.error Err.emptyPlan := by
  decide

theorem process_single_key_result (G : Type) (p : Plan G) (f0 : Feature G)
    (rest : List (Feature G)) (k : String)
    (hfeats : p.geojson.features = f0 :: rest)
    (hk : known_rate_keys f0.properties = [k]) :
    process_plan_geojson p ≠ Except.error Err.noUniqueRateKey := by
  cases hc : collectPositive k ((f0 :: rest).map (fun f => f.properties)) with
  | error e =>
      intro hcon
      simp only [process_plan_geojson, hfeats, hk, hc] at hcon
      cases hcon
      exact absurd (collectPositive_error _ _ _ hc) (by decide)
  | ok rate_values =>
      cases rate_values with
      | nil =>
          intro hcon
          simp only [process_plan_geojson, hfeats, hk, hc] at hcon
          cases hcon
      | cons v vs =>
          cases ha : assignV22 k (vs.foldl max v) (f0 :: rest) with
          | error e =>
              intro hcon
              simp only [process_plan_geojson, hfeats, hk, hc, ha] at hcon
              cases hcon
              exact absurd (assignV22_error _ _ _ _ ha) (by decide)
          | ok feats =>
              intro hcon
              simp only [process_plan_geojson, hfeats, hk, hc, ha] at hcon
              cases hcon

/-- C6: given a first feature, `process_plan_geojson` fails with the
no-unique-rate-key error exactly when the intersection of the key set of
the first feature with the alias set RATE, Menge, rate, fertilizer does
not have exactly one element. -/
theorem C6_no_unique_rate_key (G : Type) (p : Plan G) (f0 : Feature G)
    (rest : List (Feature G)) (hfeats : p.geojson.features = f0 :: rest) :
    process_plan_geojson p = Except.error Err.noUniqueRateKey ↔
      (known_rate_keys f0.properties).length ≠ 1 := by
  constructor
  · intro h hlen
    obtain ⟨k, hk⟩ : ∃ k, known_rate_keys f0.properties = [k] := by
      cases hkk : known_rate_keys f0.properties with
      | nil => rw [hkk] at hlen; simp at hlen
      | cons a l =>
          cases l with
          | nil => exact ⟨a, rfl⟩
          | cons b l2 => rw [hkk] at hlen; simp at hlen
    exact process_single_key_result G p f0 rest k hfeats hk h
  · intro hlen
    cases hkk : known_rate_keys f0.properties with
    | nil => simp only [process_plan_geojson, hfeats, hkk]
    | cons a l =>
        cases l with
        | nil => rw [hkk] at hlen; simp at hlen
        | cons b l2 => simp only [process_plan_geojson, hfeats, hkk]

/-- Witness for C6: a first feature carrying both RATE and rate fails with
the no-unique-rate-key error. -/
theorem C6_witness :
    process_plan_geojson planBoth = Except.error Err.noUniqueRateKey :=
  (C6_no_unique_rate_key Unit planBoth
    { geometry := (), properties := [("RATE", 5), ("rate", 7)] } [] rfl).mpr
    (by decide)

/-- C7: on a plan with a unique rate key but no strictly positive rate
value, the source takes the minimum of an empty list, an unhandled
ValueError, and not an explicit no-positive-rate-values error. -/
theorem C7_no_positive_rates_crash :
    process_plan_geojson planNonPos = Except.error Err.valueError ∧
    Err.valueError ≠ Err.noPositiveRateValues := by decide

/-- C10: when the first feature resolves a unique rate key but some
feature lacks that key, `process_plan_geojson` fails with a key lookup
error rather than treating the missing value as zero. -/
theorem C10_missing_key (G : Type) (p : Plan G) (f0 : Feature G)
    (rest : List (Feature G)) (k : String) (f : Feature G)
    (hfeats : p.geojson.features = f0 :: rest)
    (hk : known_rate_keys f0.properties = [k])
    (hf : f ∈ p.geojson.features)
    (hmiss : lookup f.properties k = none) :
    process_plan_geojson p = Except.error Err.keyError := by
  have hcol : collectPositive k (p.geojson.features.map (fun g => g.properties)) =
      .error .keyError :=
    collectPositive_missing k _ ⟨f.properties, List.mem_map_of_mem _ hf, hmiss⟩
  rw [hfeats] at hcol
  simp only [process_plan_geojson, hfeats, hk, hcol]

/-- Witness for C10: a plan resolving `rate` on the first feature whose
second feature has only `Menge` fails with the key lookup error. -/
theorem C10_witness :
    process_plan_geojson planMissing = Except.error Err.keyError :=
  C10_missing_key Unit planMissing
    { geometry := (), properties := [("rate", 5)] }
    [{ geometry := (), properties := [("Menge", 4)] }] "rate"
    { geometry := (), properties := [("Menge", 4)] }
    rfl (by decide) (by decide) (by decide)

/-- C2: for a plan whose first feature resolves a unique rate key and whose
positive-value collection succeeds nonempty, `process_plan_geojson`
returns the plan annotated with `min_rate` the minimum and `max_rate` the
maximum of the collected strictly positive values, and every feature,
positive valued or not, receives `V22RATE` equal to its rate value divided
by `max_rate`. -/
theorem C2_rate_range (G : Type) (p : Plan G) (f0 : Feature G)
    (rest : List (Feature G)) (k : String) (v : ℚ) (vs : List ℚ)
    (hfeats : p.geojson.features = f0 :: rest)
    (hk : known_rate_keys f0.properties = [k])
    (hc : collectPositive k (p.geojson.features.map (fun f => f.properties)) =
      .ok (v :: vs)) :
    ∃ feats' : List (Feature G),
      process_plan_geojson p = Except.ok
        { p with geojson := ⟨feats'⟩,
                 min_rate := some (vs.foldl min v),
                 max_rate := some (vs.foldl max v) } ∧
      vs.foldl min v ∈ v :: vs ∧
      (∀ x ∈ v :: vs, vs.foldl min v ≤ x) ∧
      vs.foldl max v ∈ v :: vs ∧
      (∀ x ∈ v :: vs, x ≤ vs.foldl max v) ∧
      List.Forall₂ (fun f f' => ∀ x : ℚ, lookup f.properties k = some x →
          lookup f'.properties "V22RATE" = some (x / vs.foldl max v))
        p.geojson.features feats' := by
  have hall : ∀ f ∈ p.geojson.features, ∃ x : ℚ, lookup f.properties k = some x := by
    intro f hf
    exact collectPositive_ok_lookup k _ _ hc f.properties (List.mem_map_of_mem _ hf)
  obtain ⟨feats', hass⟩ := assignV22_total k (vs.foldl max v) p.geojson.features hall
  have hf2 := assignV22_ok_forall2 k (vs.foldl max v) _ _ hass
  have hc' := hc
  have hass' := hass
  rw [hfeats] at hc' hass'
  refine ⟨feats', ?_, foldl_min_mem vs v, fun x hx => foldl_min_le vs v x hx,
    foldl_max_mem vs v, fun x hx => le_foldl_max vs v x hx, ?_⟩
  · simp only [process_plan_geojson, hfeats, hk, hc', hass']
  · refine List.Forall₂.imp ?_ hf2
    intro f f' hx x hlx
    obtain ⟨x0, hx0, hprops⟩ := hx
    rw [hlx] at hx0
    cases hx0
    rw [hprops, lookup_setKey_self]

/-- Witness for C2 at the spec example: rate values 10, 20, 30 give
min_rate 10, max_rate 30 and V22RATE values 1/3, 2/3, 1, which match
0.333, 0.667 and 1.0 within tolerance 1/1000. -/
theorem C2_witness :
    (∃ feats' : List (Feature Unit),
      process_plan_geojson plan3 = Except.ok
        { plan3 with geojson := ⟨feats'⟩,
                     min_rate := some (([20, 30] : List ℚ).foldl min 10),
                     max_rate := some (([20, 30] : List ℚ).foldl max 10) } ∧
      ([20, 30] : List ℚ).foldl min 10 ∈ (10 : ℚ) :: [20, 30] ∧
      (∀ x ∈ (10 : ℚ) :: [20, 30], ([20, 30] : List ℚ).foldl min 10 ≤ x) ∧
      ([20, 30] : List ℚ).foldl max 10 ∈ (10 : ℚ) :: [20, 30] ∧
      (∀ x ∈ (10 : ℚ) :: [20, 30], x ≤ ([20, 30] : List ℚ).foldl max 10) ∧
      List.Forall₂ (fun f f' => ∀ x : ℚ, lookup f.properties "rate" = some x →
          lookup f'.properties "V22RATE" = some (x / ([20, 30] : List ℚ).foldl max 10))
        plan3.geojson.features feats') ∧
    (process_plan_geojson plan3 = Except.ok plan3out ∧
     plan3out.min_rate = some 10 ∧ plan3out.max_rate = some 30 ∧
     plan3out.geojson.features.map (fun f => lookup f.properties "V22RATE") =
       [some ((1 : ℚ)/3), some ((2 : ℚ)/3), some 1] ∧
     |(1 : ℚ)/3 - 333/1000| ≤ 1/1000 ∧
     |(2 : ℚ)/3 - 667/1000| ≤ 1/1000 ∧
     |(1 : ℚ) - 1| ≤ 1/1000) := by
  constructor
  · exact C2_rate_range Unit plan3 { geometry := (), properties := [("rate", 10)] }
      [{ geometry := (), properties := [("rate", 20)] },
       { geometry := (), properties := [("rate", 30)] }] "rate" 10 [20, 30]
      rfl (by decide) (by decide)
  · refine ⟨?_, rfl, rfl, ?_, ?_, ?_, ?_⟩
    · norm_num [process_plan_geojson, plan3, plan3out, known_rate_keys,
        collectPositive, assignV22, lookup, setKey, rate_aliases, max_def, min_def]
      decide
    · norm_num [plan3out, lookup]
      decide
    · rw [abs_le]
      norm_num
    · rw [abs_le]
      norm_num
    · rw [abs_le]
      norm_num

/-- C9 (amended): on every successfully processed plan the derived V22RATE
of a feature is at most 1, and lies in the interval 0 to 1 whenever the
rate value of that feature is non-negative; a feature with a negative rate
value receives a negative V22RATE. -/
theorem C9_v22rate_bounds (G : Type) (p q : Plan G) (k : String)
    (hk : resolved_rate_key p = some k)
    (hok : process_plan_geojson p = Except.ok q) :
    List.Forall₂ (fun f f' => ∀ v w : ℚ,
        lookup f.properties k = some v →
        lookup f'.properties "V22RATE" = some w →
        w ≤ 1 ∧ (0 ≤ v → 0 ≤ w))
      p.geojson.features q.geojson.features := by
  cases hfeats : p.geojson.features with
  | nil =>
      simp only [resolved_rate_key, hfeats] at hk
      cases hk
  | cons f0 rest =>
      cases hkk : known_rate_keys f0.properties with
      | nil =>
          simp only [resolved_rate_key, hfeats, hkk] at hk
          cases hk
      | cons a l =>
          cases l with
          | cons b l2 =>
              simp only [resolved_rate_key, hfeats, hkk] at hk
              cases hk
          | nil =>
              simp only [resolved_rate_key, hfeats, hkk] at hk
              cases hk
              cases hc : collectPositive k ((f0 :: rest).map (fun f => f.properties)) with
              | error e =>
                  simp only [process_plan_geojson, hfeats, hkk, hc] at hok
                  cases hok
              | ok rate_values =>
                  cases rate_values with
                  | nil =>
                      simp only [process_plan_geojson, hfeats, hkk, hc] at hok
                      cases hok
                  | cons v vs =>
                      cases ha : assignV22 k (vs.foldl max v) (f0 :: rest) with
                      | error e =>
                          simp only [process_plan_geojson, hfeats, hkk, hc, ha] at hok
                          cases hok
                      | ok feats =>
                          simp only [process_plan_geojson, hfeats, hkk, hc, ha] at hok
                          cases hok
                          have hM : 0 < vs.foldl max v :=
                            collectPositive_ok_pos k _ _ hc _ (foldl_max_mem vs v)
                          refine assignV22_bounds k (vs.foldl max v) hM
                            (f0 :: rest) feats ha ?_
                          intro g hg x hx
                          by_cases hp : 0 < x
                          · exact le_foldl_max vs v x
                              (collectPositive_ok_mem k _ _ hc g.properties
                                (List.mem_map_of_mem _ hg) x hx hp)
                          · push_neg at hp
                            exact le_trans hp (le_of_lt hM)

/-- Witness for C9 (amended) on `planNeg`. -/
theorem C9_witness :
    List.Forall₂ (fun f f' => ∀ v w : ℚ,
        lookup f.properties "rate" = some v →
        lookup f'.properties "V22RATE" = some w →
        w ≤ 1 ∧ (0 ≤ v → 0 ≤ w))
      planNeg.geojson.features planNegOut.geojson.features :=
  C9_v22rate_bounds Unit planNeg planNegOut "rate" (by decide)
    (by
      norm_num [process_plan_geojson, planNeg, planNegOut, known_rate_keys,
        collectPositive, assignV22, lookup, setKey, rate_aliases, max_def, min_def]
      decide)

/-- Counterexample for C9 as frozen: in `planNeg` the feature with rate
value -5 is processed successfully but receives V22RATE -1/2, which lies
outside the interval 0 to 1. -/
theorem C9_counterexample :
    process_plan_geojson planNeg = Except.ok planNegOut ∧
    planNegOut.geojson.features.map (fun f => lookup f.properties "V22RATE") =
      [some (-(1/2) : ℚ), some 1] ∧
    ¬ (0 ≤ (-(1/2) : ℚ)) := by
  refine ⟨?_, ?_, by norm_num⟩
  · norm_num [process_plan_geojson, planNeg, planNegOut, known_rate_keys,
      collectPositive, assignV22, lookup, setKey, rate_aliases, max_def, min_def]
    decide
  · norm_num [planNegOut, lookup]
    decide
